import Mathlib

/-
Verification development for the BigCommerce HTTP client (src/index.js).

The client is shallowly embedded as pure Lean functions.  JavaScript's
single-threaded, run-to-completion semantics lets us model each async
method as a state-passing function: the mutable client session field
this.meta, the sequence of issued HTTP requests, and the state of the
remote server are threaded through a World record.

External collaborators (the HTTP transport, JSON encoding and decoding)
are modelled abstractly, as the spec directs: a response body is a
BodyText bundling the raw text with the value JSON.parse yields on it,
and the transport is a caller-supplied step function from server state
and request to transport outcome.

JavaScript's unbounded retry-on-transport-failure recursion is embedded
with an explicit fuel parameter; a run that would exceed the fuel
returns the distinguished result Res.stuck.  No theorem below relies on
stuckness.
-/

namespace Bc

/- JSON values, as produced by JSON.parse on an envelope body. -/
inductive Json where
  | null
  | bool (b : Bool)
  | num (n : Int)
  | str (s : String)
  | arr (elems : List Json)
  | obj (fields : List (String × Json))

def lookupField : List (String × Json) → String → Option Json
  | [], _ => none
  | (k, v) :: rest, key => if k = key then some v else lookupField rest key

/- JavaScript property access x.k on a JSON value: accessing a property
of null throws a TypeError (result none); a missing property, or a
property of a non-object primitive, yields undefined (result some
none). -/
def jsProp : Json → String → Option (Option Json)
  | Json.null, _ => none
  | Json.obj fs, k => some (lookupField fs k)
  | _, _ => some none

/- Errors a call can surface: the thrown Error of a non-2xx response
(carrying the formatted message), the SyntaxError of JSON.parse on an
invalid body, and the TypeError of a property access on undefined or
null. -/
inductive JsErr where
  | requestError (msg : String)
  | parseError
  | typeError
deriving DecidableEq

inductive Res (α : Type) where
  | ok (a : α)
  | err (e : JsErr)
  | stuck

/- A response body as handed to the client: the raw text together with
the value JSON.parse returns on it (none when the text is not valid
JSON).  JSON decoding is an external collaborator of the spec, so it is
modelled by this bundled oracle rather than re-implemented. -/
structure BodyText where
  text : String
  json : Option Json

/- An issued HTTP request.  The headers are a fixed function of the
client instance (src/index.js lines 14-18) and so are not repeated in
every request record; the body is the JSON value serialized for POST and
PUT (serialization is an external collaborator). -/
structure Request where
  method : String
  url : String
  body : Option Json

/- Outcome of one transport attempt: either the transport threw before
any HTTP response (network error or the 15 second timeout), or a
response with status, status text and body arrived. -/
inductive TransportResult where
  | thrown
  | response (status : Nat) (statusText : String) (body : BodyText)

/- The threaded state of a run: the remote server's state (consumed by
the transport step function), the log of issued requests in issue
order, and the client session's mutable this.meta field (none models
the JavaScript value undefined; the constructor initialises it to the
empty object, src/index.js line 19). -/
structure World (σ : Type) where
  server : σ
  log : List Request
  meta : Option Json

def initWorld {σ : Type} (s : σ) : World σ :=
  ⟨s, [], some (Json.obj [])⟩

/- The transport: one attempt consumes one server step.  Models the
fetch call sites (src/index.js lines 35, 91, 108, 125). -/
def doFetch {σ : Type} (step : σ → Request → TransportResult × σ)
    (req : Request) (w : World σ) : TransportResult × World σ :=
  ((step w.server req).1, ⟨(step w.server req).2, w.log ++ [req], w.meta⟩)

/- The client session constants (src/index.js lines 12-21). -/
structure Client where
  base : String
  token : String

def mkClient (hash token : String) : Client :=
  ⟨"https://api.bigcommerce.com/stores/" ++ hash ++ "/", token⟩

/- querystring.stringify of a flat string map, restricted to key and
value characters that need no percent-escaping (the only kind the
client and spec exercise). -/
def stringifyQ : List (String × String) → String
  | [] => ""
  | [(k, v)] => k ++ "=" ++ v
  | (k, v) :: rest => k ++ "=" ++ v ++ "&" ++ stringifyQ rest

/- JavaScript assignment queries.key = value on a plain object: replaces
the value in place when the key exists, appends otherwise (object key
insertion order, which querystring.stringify follows). -/
def setQ : List (String × String) → String → String → List (String × String)
  | [], k, v => [(k, v)]
  | (k', v') :: rest, k, v =>
    if k' = k then (k, v) :: rest else (k', v') :: setQ rest k v

/- The endpoint mutation endpoint += '?' + querystring.stringify(queries)
performed at the top of get and delete (src/index.js lines 31, 121). -/
def epOf (endpoint : String) (queries : List (String × String)) : String :=
  endpoint ++ "?" ++ stringifyQ queries

def getReq (c : Client) (endpoint : String) (queries : List (String × String)) : Request :=
  ⟨"GET", c.base ++ epOf endpoint queries, none⟩

/- response.ok: status in the inclusive range 200-299. -/
def statusOk (status : Nat) : Bool :=
  decide (200 ≤ status) && decide (status ≤ 299)

/- The thrown message of a non-2xx response (src/index.js line 38):
status, status text and raw response body text. -/
def errMsg (status : Nat) (statusText bodyText : String) : String :=
  toString status ++ " - " ++ statusText ++ ": " ++ bodyText

/- readResponse (src/index.js lines 149-156): an empty body returns
undefined and leaves the session untouched; a non-empty body is parsed
by JSON.parse (SyntaxError surfaces when it is not valid JSON), then
this.meta is overwritten with body.meta and body.data is returned.
Property access on a parsed null throws a TypeError. -/
def readResponse {σ : Type} (body : BodyText) (w : World σ) :
    Res (Option Json) × World σ :=
  if body.text.length ≠ 0 then
    match body.json with
    | none => (Res.err JsErr.parseError, w)
    | some j =>
      match jsProp j "meta", jsProp j "data" with
      | some m, some d => (Res.ok d, ⟨w.server, w.log, m⟩)
      | _, _ => (Res.err JsErr.typeError, w)
  else (Res.ok none, w)

/- get (src/index.js lines 30-39).  Note the retry in the catch branch
calls this.get with the already-mutated endpoint, so the retried URL has
the query string appended a second time.  The fuel bounds the number of
transport-failure retries. -/
def get {σ : Type} (step : σ → Request → TransportResult × σ) (c : Client)
    (fuel : Nat) (endpoint : String) (queries : List (String × String))
    (w : World σ) : Res (Option Json) × World σ :=
  let r := doFetch step (getReq c endpoint queries) w
  match r.1 with
  | TransportResult.thrown =>
    match fuel with
    | 0 => (Res.stuck, r.2)
    | fuel' + 1 => get step c fuel' (epOf endpoint queries) queries r.2
  | TransportResult.response st stx body =>
    if statusOk st then readResponse body r.2
    else (Res.err (JsErr.requestError (errMsg st stx body.text)), r.2)

/- post (src/index.js lines 87-95).  No endpoint mutation happens before
the try block, so its retry re-issues an identical request. -/
def post {σ : Type} (step : σ → Request → TransportResult × σ) (c : Client)
    (fuel : Nat) (endpoint : String) (body : Json) (w : World σ) :
    Res (Option Json) × World σ :=
  let r := doFetch step ⟨"POST", c.base ++ endpoint, some body⟩ w
  match r.1 with
  | TransportResult.thrown =>
    match fuel with
    | 0 => (Res.stuck, r.2)
    | fuel' + 1 => post step c fuel' endpoint body r.2
  | TransportResult.response st stx rbody =>
    if statusOk st then readResponse rbody r.2
    else (Res.err (JsErr.requestError (errMsg st stx rbody.text)), r.2)

/- put (src/index.js lines 104-112), identical in shape to post. -/
def put {σ : Type} (step : σ → Request → TransportResult × σ) (c : Client)
    (fuel : Nat) (endpoint : String) (body : Json) (w : World σ) :
    Res (Option Json) × World σ :=
  let r := doFetch step ⟨"PUT", c.base ++ endpoint, some body⟩ w
  match r.1 with
  | TransportResult.thrown =>
    match fuel with
    | 0 => (Res.stuck, r.2)
    | fuel' + 1 => put step c fuel' endpoint body r.2
  | TransportResult.response st stx rbody =>
    if statusOk st then readResponse rbody r.2
    else (Res.err (JsErr.requestError (errMsg st stx rbody.text)), r.2)

/- delete (src/index.js lines 120-129).  The catch branch awaits the
retried delete but does not return its outcome; control then falls
through to the test response.ok with response still unassigned, which
throws a TypeError on the original call.  A rejection of the retried
delete propagates out of the catch unchanged. -/
def delete {σ : Type} (step : σ → Request → TransportResult × σ) (c : Client)
    (fuel : Nat) (endpoint : String) (queries : List (String × String))
    (w : World σ) : Res Unit × World σ :=
  let r := doFetch step ⟨"DELETE", c.base ++ epOf endpoint queries, none⟩ w
  match r.1 with
  | TransportResult.thrown =>
    match fuel with
    | 0 => (Res.stuck, r.2)
    | fuel' + 1 =>
      match delete step c fuel' (epOf endpoint queries) queries r.2 with
      | (Res.ok _, w2) => (Res.err JsErr.typeError, w2)
      | (other, w2) => (other, w2)
  | TransportResult.response st stx body =>
    if statusOk st then (Res.ok (), r.2)
    else (Res.err (JsErr.requestError (errMsg st stx body.text)), r.2)

/- A pending page fetch produced inside paginate's synchronous loop.
Calling this.get(endpoint, queries) runs get's body up to the first
await: the URL is snapshotted (endpoint += '?' + stringify(queries))
and the fetch is issued immediately, consuming one transport step; the
response is held until the promise is resolved. -/
structure PendingGet where
  r : TransportResult
  ep : String
  queries : List (String × String)

/- The synchronous prefix of a this.get call: snapshot the URL, issue
the fetch.  Does not touch this.meta. -/
def getIssue {σ : Type} (step : σ → Request → TransportResult × σ) (c : Client)
    (endpoint : String) (queries : List (String × String)) (w : World σ) :
    PendingGet × World σ :=
  (⟨(doFetch step (getReq c endpoint queries) w).1, epOf endpoint queries, queries⟩,
   (doFetch step (getReq c endpoint queries) w).2)

/- Resuming a pending get at its await point: a received response is
processed exactly as in get; a transport failure re-runs get on the
mutated endpoint (the retry is not exercised by any verified run, so
the queries snapshot taken at issue time stands in for the shared query
object). -/
def resolveGet {σ : Type} (step : σ → Request → TransportResult × σ) (c : Client)
    (fuel : Nat) (p : PendingGet) (w : World σ) : Res (Option Json) × World σ :=
  match p.r with
  | TransportResult.thrown =>
    match fuel with
    | 0 => (Res.stuck, w)
    | fuel' + 1 => get step c fuel' p.ep p.queries w
  | TransportResult.response st stx body =>
    if statusOk st then readResponse body w
    else (Res.err (JsErr.requestError (errMsg st stx body.text)), w)

/- One entry of the array paginate returns: its head is the awaited data
of the first page, every later entry a pending page fetch. -/
inductive PageHandle where
  | value (d : Option Json)
  | pending (p : PendingGet)

/- this.meta.pagination.total_pages as read at the top of _paginate
(src/index.js line 57): none models the TypeError thrown when this.meta
or its pagination property is undefined or null. -/
def readTotal (meta : Option Json) : Option (Option Json) :=
  match meta with
  | none => none
  | some m =>
    match jsProp m "pagination" with
    | none => none
    | some none => none
    | some (some p) => jsProp p "total_pages"

/- The loop test current < total.  For a numeric total_pages this is the
numeric comparison; comparison against undefined is false, which is how
the loop stops when total_pages is absent.  (Comparisons against other
JSON values, which JavaScript would coerce, are not exercised by the
client's wire contract and are modelled as false.) -/
def ltTotal (current : Nat) (total : Option Json) : Bool :=
  match total with
  | some (Json.num n) => decide ((current : Int) < n)
  | _ => false

/- The recursive arrow function _paginate (src/index.js lines 56-65).
It is synchronous: it re-reads this.meta.pagination.total_pages at each
iteration, overwrites queries.page, and when current < total issues one
more eagerly-started page fetch.  No await occurs inside it, so no
response handler can run (and hence this.meta cannot change) before it
returns.  The fuel bounds the iteration count. -/
def paginateLoop {σ : Type} (step : σ → Request → TransportResult × σ)
    (c : Client) (endpoint : String) (fuel : Nat)
    (queries : List (String × String)) (accum : List PageHandle)
    (current : Nat) (w : World σ) :
    Res (List PageHandle × List (String × String)) × World σ :=
  match readTotal w.meta with
  | none => (Res.err JsErr.typeError, w)
  | some total =>
    let queries' := setQ queries "page" (toString (current + 1))
    if ltTotal current total then
      match fuel with
      | 0 => (Res.stuck, w)
      | fuel' + 1 =>
        let h := getIssue step c endpoint queries' w
        paginateLoop step c endpoint fuel' queries'
          (accum ++ [PageHandle.pending h.1]) (current + 1) h.2
    else (Res.ok (accum, queries'), w)

/- paginate (src/index.js lines 55-67): await the first page's get, then
run _paginate starting from accum = [first page] and current = 1.  The
returned pair also carries the final state of the caller's shared query
object. -/
def paginate {σ : Type} (step : σ → Request → TransportResult × σ) (c : Client)
    (fuel : Nat) (endpoint : String) (queries : List (String × String))
    (w : World σ) : Res (List PageHandle × List (String × String)) × World σ :=
  match get step c fuel endpoint queries w with
  | (Res.ok d, w') => paginateLoop step c endpoint fuel queries [PageHandle.value d] 1 w'
  | (Res.err e, w') => (Res.err e, w')
  | (Res.stuck, w') => (Res.stuck, w')

/- Modelled from the spec: the Paginator variant of section 4.3 that
reads total_pages from the first page's metadata exactly once and never
re-reads it.  Used only to state the refinement claim about paginate. -/
def paginateOnceLoop {σ : Type} (step : σ → Request → TransportResult × σ)
    (c : Client) (endpoint : String) (fuel : Nat) (total : Option Json)
    (queries : List (String × String)) (accum : List PageHandle)
    (current : Nat) (w : World σ) :
    Res (List PageHandle × List (String × String)) × World σ :=
  let queries' := setQ queries "page" (toString (current + 1))
  if ltTotal current total then
    match fuel with
    | 0 => (Res.stuck, w)
    | fuel' + 1 =>
      let h := getIssue step c endpoint queries' w
      paginateOnceLoop step c endpoint fuel' total queries'
        (accum ++ [PageHandle.pending h.1]) (current + 1) h.2
  else (Res.ok (accum, queries'), w)

/- Modelled from the spec: paginate with the single up-front read of
total_pages. -/
def paginateOnce {σ : Type} (step : σ → Request → TransportResult × σ)
    (c : Client) (fuel : Nat) (endpoint : String)
    (queries : List (String × String)) (w : World σ) :
    Res (List PageHandle × List (String × String)) × World σ :=
  match get step c fuel endpoint queries w with
  | (Res.ok d, w') =>
    match readTotal w'.meta with
    | none => (Res.err JsErr.typeError, w')
    | some total => paginateOnceLoop step c endpoint fuel total queries [PageHandle.value d] 1 w'
  | (Res.err e, w') => (Res.err e, w')
  | (Res.stuck, w') => (Res.stuck, w')

/- The value computed by BlueBirdProm.map(handles, identity, concurrency 3)
(src/index.js line 77): the in-order list of each handle's resolved
value; the first rejection rejects the whole aggregation.  The
concurrency option only schedules the awaiting of already-started
promises and does not change the collected value (the scheduling itself
is treated by the fetch-event trace model further below). -/
def resolveHandles {σ : Type} (step : σ → Request → TransportResult × σ)
    (c : Client) (fuel : Nat) : List PageHandle → World σ →
    Res (List (Option Json)) × World σ
  | [], w => (Res.ok [], w)
  | PageHandle.value d :: rest, w =>
    match resolveHandles step c fuel rest w with
    | (Res.ok ds, w') => (Res.ok (d :: ds), w')
    | (other, w') => (other, w')
  | PageHandle.pending p :: rest, w =>
    match resolveGet step c fuel p w with
    | (Res.ok d, w') =>
      match resolveHandles step c fuel rest w' with
      | (Res.ok ds, w2) => (Res.ok (d :: ds), w2)
      | (other, w2) => (other, w2)
    | (Res.err e, w') => (Res.err e, w')
    | (Res.stuck, w') => (Res.stuck, w')

/- getAll (src/index.js lines 76-78): resolve paginate's array with the
Bluebird map.  Note the mapper is the identity, so the collected value
is the list of per-page data arrays; nothing concatenates them. -/
def getAll {σ : Type} (step : σ → Request → TransportResult × σ) (c : Client)
    (fuel : Nat) (endpoint : String) (queries : List (String × String))
    (w : World σ) : Res (List (Option Json)) × World σ :=
  match paginate step c fuel endpoint queries w with
  | (Res.ok hq, w') => resolveHandles step c fuel hq.1 w'
  | (Res.err e, w') => (Res.err e, w')
  | (Res.stuck, w') => (Res.stuck, w')

/- items.length and the array-ness of the fetched page in deleteAll:
undefined.length and null.length throw a TypeError; an array yields its
elements; on other values .length is undefined, so the while test is
falsy and the loop exits (string data, whose .length is a number, is
outside the wire contract and not modelled). -/
def jsItems : Option Json → Res (List Json)
  | none => Res.err JsErr.typeError
  | some Json.null => Res.err JsErr.typeError
  | some (Json.arr xs) => Res.ok xs
  | some _ => Res.ok []

/- JavaScript string coercion of item.id as used in the delete URL
endpoint + '/' + item.id. -/
def jsToString : Option Json → String
  | none => "undefined"
  | some (Json.num n) => toString n
  | some (Json.str s) => s
  | some Json.null => "null"
  | some (Json.bool b) => if b then "true" else "false"
  | some (Json.arr _) => ""
  | some (Json.obj _) => "object"

/- The Promise.all(items.map(item => this.delete(endpoint + '/' + item.id)))
of one deleteAll round (src/index.js lines 142-144), modelled by
resolving the deletes in item order: completion interleavings do not
affect the request multiset or any count.  Reading id of a null item
throws synchronously. -/
def deleteItems {σ : Type} (step : σ → Request → TransportResult × σ)
    (c : Client) (fuel : Nat) (endpoint : String) :
    List Json → World σ → Res Unit × World σ
  | [], w => (Res.ok (), w)
  | item :: rest, w =>
    match jsProp item "id" with
    | none => (Res.err JsErr.typeError, w)
    | some idv =>
      match delete step c fuel (endpoint ++ "/" ++ jsToString idv) [] w with
      | (Res.ok _, w') => deleteItems step c fuel endpoint rest w'
      | (other, w') => (other, w')

/- The while loop of deleteAll (src/index.js lines 141-146); rounds
bounds its iteration count. -/
def deleteAllLoop {σ : Type} (step : σ → Request → TransportResult × σ)
    (c : Client) (fuel rounds : Nat) (endpoint : String)
    (queries : List (String × String)) (items : List Json) (w : World σ) :
    Res Unit × World σ :=
  match items with
  | [] => (Res.ok (), w)
  | _ :: _ =>
    match rounds with
    | 0 => (Res.stuck, w)
    | rounds' + 1 =>
      match deleteItems step c fuel endpoint items w with
      | (Res.ok _, w') =>
        match get step c fuel endpoint queries w' with
        | (Res.ok d, w2) =>
          match jsItems d with
          | Res.ok items' => deleteAllLoop step c fuel rounds' endpoint queries items' w2
          | Res.err e => (Res.err e, w2)
          | Res.stuck => (Res.stuck, w2)
        | (Res.err e, w2) => (Res.err e, w2)
        | (Res.stuck, w2) => (Res.stuck, w2)
      | (other, w') => (other, w')

/- deleteAll (src/index.js lines 138-147): set queries.limit, fetch one
page, then while the page is non-empty delete every fetched item and
re-fetch the same query. -/
def deleteAll {σ : Type} (step : σ → Request → TransportResult × σ)
    (c : Client) (fuel rounds : Nat) (endpoint : String)
    (queries0 : List (String × String)) (limit : Nat) (w : World σ) :
    Res Unit × World σ :=
  let queries := setQ queries0 "limit" (toString limit)
  match get step c fuel endpoint queries w with
  | (Res.ok d, w') =>
    match jsItems d with
    | Res.ok items => deleteAllLoop step c fuel rounds endpoint queries items w'
    | Res.err e => (Res.err e, w')
    | Res.stuck => (Res.stuck, w')
  | (Res.err e, w') => (Res.err e, w')
  | (Res.stuck, w') => (Res.stuck, w')

/-
Test environments.  Each is one instantiation of the transport step
function; the raw text of every 2xx body is a placeholder (on the
success path the client inspects only its non-emptiness; the parsed
value is carried by the json field).
-/

/- An envelope body for one page of a paginated collection. -/
def envelopeBody (data : List Json) (total current : Nat) : BodyText :=
  ⟨"envelope",
   some (Json.obj
     [("data", Json.arr data),
      ("meta", Json.obj
        [("pagination", Json.obj
          [("total_pages", Json.num total), ("current_page", Json.num current)])])])⟩

/- A server for a paginated collection: the k-th issued request (k
counted from 0) is answered with the k-th page's data and the fixed
total page count. -/
def pageStep (total : Nat) (pages : Nat → List Json) :
    Nat → Request → TransportResult × Nat :=
  fun k _ => (TransportResult.response 200 "OK" (envelopeBody (pages k) total (k + 1)), k + 1)

/- A server that answers every request with the same fixed transport
outcome, leaving its state untouched. -/
def constStep {σ : Type} (r : TransportResult) : σ → Request → TransportResult × σ :=
  fun s _ => (r, s)

/- A server whose first transport attempt throws before any response and
which answers every later attempt with the given response. -/
def failFirst (r : TransportResult) : Bool → Request → TransportResult × Bool :=
  fun thrownAlready _ =>
    if thrownAlready then (r, true) else (TransportResult.thrown, true)

/- One item of the deletable collection, as the wire contract returns
it: a record with an id field. -/
def toItem (i : Int) : Json :=
  Json.obj [("id", Json.num i)]

/- The body answering a fetch of the deletable collection. -/
def itemsBody (ids : List Int) : BodyText :=
  ⟨"items", some (Json.obj [("data", Json.arr (ids.map toItem)), ("meta", Json.obj [])])⟩

/- A server for the delete-until-empty run: its state is the list of
remaining item ids; a GET returns the first pageLimit remaining items
and a DELETE removes one item, answering 204 with an empty body. -/
def deleteStep (pageLimit : Nat) : List Int → Request → TransportResult × List Int :=
  fun ids req =>
    if req.method = "DELETE" then
      (TransportResult.response 204 "No Content" ⟨"", none⟩, ids.drop 1)
    else
      (TransportResult.response 200 "OK" (itemsBody (ids.take pageLimit)), ids)

/-
Fetch-event trace of a getAll run.  JavaScript is single threaded with
run-to-completion: paginate's loop (src/index.js lines 56-66) contains
no await, so every this.get(endpoint, queries) it evaluates issues its
underlying fetch immediately (an async function body runs synchronously
up to its first await) and the event loop cannot process any of those
responses until the loop has returned.  The trace of one getAll run is
therefore: the first page's fetch is started and completes; then the
loop starts the fetch of every remaining page; only then can the
remaining completions occur, in whatever order the network delivers
them (the order parameter).  Bluebird's concurrency option schedules
only the awaiting of these already-started promises and cannot delay
the starts.
-/

inductive FetchEv where
  | start (r : Request)
  | complete (r : Request)

def pendingReqs (c : Client) : List PageHandle → List Request
  | [] => []
  | PageHandle.value _ :: rest => pendingReqs c rest
  | PageHandle.pending p :: rest => ⟨"GET", c.base ++ p.ep, none⟩ :: pendingReqs c rest

def getAllTrace {σ : Type} (step : σ → Request → TransportResult × σ) (c : Client)
    (fuel : Nat) (endpoint : String) (queries : List (String × String))
    (w : World σ) (order : List Nat) : List FetchEv :=
  match paginate step c fuel endpoint queries w with
  | (Res.ok hq, _) =>
    (FetchEv.start (getReq c endpoint queries) ::
     FetchEv.complete (getReq c endpoint queries) ::
     (pendingReqs c hq.1).map FetchEv.start) ++
    order.filterMap (fun i => ((pendingReqs c hq.1).get? i).map FetchEv.complete)
  | _ => []

/- The largest number of simultaneously in-flight fetches along a trace,
starting from cur already in flight. -/
def inFlightMax : List FetchEv → Nat → Nat
  | [], cur => cur
  | FetchEv.start _ :: rest, cur => max (cur + 1) (inFlightMax rest (cur + 1))
  | FetchEv.complete _ :: rest, cur => inFlightMax rest (cur - 1)

/- String s contains sub as a substring. -/
def containsStr (s sub : String) : Prop :=
  ∃ a b, s = a ++ sub ++ b

/- The page-index marker of one paginate entry: the resolved first page
maps to none, a pending page fetch to its snapshotted URL path. -/
def handleEp : PageHandle → Option String
  | PageHandle.value _ => none
  | PageHandle.pending p => some p.ep

def countMethod (log : List Request) (m : String) : Nat :=
  (log.filter (fun r => r.method == m)).length

/- The fixture client used by the concrete runs. -/
def client0 : Client := mkClient "abc" "tok"

/- A 2xx response with an empty body. -/
def emptyBody : BodyText := ⟨"", none⟩

/- A 2xx response whose body is the two-character text of an empty JSON
object, lacking both data and meta. -/
def emptyObjBody : BodyText := ⟨"\x7b\x7d", some (Json.obj [])⟩

/- A two-page collection: page 1 holds two items, page 2 one item. -/
def c1pages : Nat → List Json :=
  fun k => if k = 0 then [Json.num 1, Json.num 2] else [Json.num 3]

/-
Helper lemmas.
-/

theorem readResponse_log {σ : Type} (b : BodyText) (w : World σ) :
    (readResponse b w).2.log = w.log := by
  by_cases h : b.text.length = 0
  · simp [readResponse, h]
  · cases hj : b.json with
    | none => simp [readResponse, h, hj]
    | some j =>
      cases hm : jsProp j "meta" <;> cases hd : jsProp j "data" <;>
        simp [readResponse, h, hj, hm, hd]

theorem getIssue_meta {σ : Type} (step : σ → Request → TransportResult × σ)
    (c : Client) (e : String) (q : List (String × String)) (w : World σ) :
    ((getIssue step c e q w).2).meta = w.meta := rfl

theorem setQ_setQ (q : List (String × String)) (k a b : String) :
    setQ (setQ q k a) k b = setQ q k b := by
  induction q with
  | nil => simp [setQ]
  | cons hd tl ih =>
    rcases hd with ⟨k', v'⟩
    by_cases hk : k' = k
    · simp [setQ, hk]
    · simp [setQ, hk, ih]

theorem paginateLoop_zero {σ : Type} (step : σ → Request → TransportResult × σ)
    (c : Client) (endpoint : String) (queries : List (String × String))
    (accum : List PageHandle) (current : Nat) (w : World σ) :
    paginateLoop step c endpoint 0 queries accum current w
      = match readTotal w.meta with
        | none => (Res.err JsErr.typeError, w)
        | some total =>
          if ltTotal current total then (Res.stuck, w)
          else (Res.ok (accum, setQ queries "page" (toString (current + 1))), w) := by
  conv_lhs => unfold paginateLoop

theorem paginateLoop_succ {σ : Type} (step : σ → Request → TransportResult × σ)
    (c : Client) (endpoint : String) (n : Nat) (queries : List (String × String))
    (accum : List PageHandle) (current : Nat) (w : World σ) :
    paginateLoop step c endpoint (n + 1) queries accum current w
      = match readTotal w.meta with
        | none => (Res.err JsErr.typeError, w)
        | some total =>
          if ltTotal current total then
            paginateLoop step c endpoint n (setQ queries "page" (toString (current + 1)))
              (accum ++ [PageHandle.pending
                (getIssue step c endpoint (setQ queries "page" (toString (current + 1))) w).1])
              (current + 1)
              ((getIssue step c endpoint (setQ queries "page" (toString (current + 1))) w).2)
          else (Res.ok (accum, setQ queries "page" (toString (current + 1))), w) := by
  conv_lhs => unfold paginateLoop

theorem paginateOnceLoop_zero {σ : Type} (step : σ → Request → TransportResult × σ)
    (c : Client) (endpoint : String) (total : Option Json)
    (queries : List (String × String)) (accum : List PageHandle) (current : Nat)
    (w : World σ) :
    paginateOnceLoop step c endpoint 0 total queries accum current w
      = if ltTotal current total then (Res.stuck, w)
        else (Res.ok (accum, setQ queries "page" (toString (current + 1))), w) := by
  conv_lhs => unfold paginateOnceLoop

theorem paginateOnceLoop_succ {σ : Type} (step : σ → Request → TransportResult × σ)
    (c : Client) (endpoint : String) (n : Nat) (total : Option Json)
    (queries : List (String × String)) (accum : List PageHandle) (current : Nat)
    (w : World σ) :
    paginateOnceLoop step c endpoint (n + 1) total queries accum current w
      = if ltTotal current total then
          paginateOnceLoop step c endpoint n total (setQ queries "page" (toString (current + 1)))
            (accum ++ [PageHandle.pending
              (getIssue step c endpoint (setQ queries "page" (toString (current + 1))) w).1])
            (current + 1)
            ((getIssue step c endpoint (setQ queries "page" (toString (current + 1))) w).2)
        else (Res.ok (accum, setQ queries "page" (toString (current + 1))), w) := by
  conv_lhs => unfold paginateOnceLoop

theorem paginateLoop_eq_once {σ : Type} (step : σ → Request → TransportResult × σ)
    (c : Client) (endpoint : String) :
    ∀ (fuel : Nat) (queries : List (String × String)) (accum : List PageHandle)
      (current : Nat) (w : World σ),
    paginateLoop step c endpoint fuel queries accum current w
      = match readTotal w.meta with
        | none => (Res.err JsErr.typeError, w)
        | some total => paginateOnceLoop step c endpoint fuel total queries accum current w := by
  intro fuel
  induction fuel with
  | zero =>
    intro queries accum current w
    cases h : readTotal w.meta with
    | none => simp [paginateLoop_zero, h]
    | some total => simp [paginateLoop_zero, paginateOnceLoop_zero, h]
  | succ n ih =>
    intro queries accum current w
    cases h : readTotal w.meta with
    | none => simp [paginateLoop_succ, h]
    | some total =>
      simp only [paginateLoop_succ, paginateOnceLoop_succ, h]
      by_cases hlt : ltTotal current total
      · simp only [hlt, if_true]
        rw [ih]
        rw [show ((getIssue step c endpoint (setQ queries "page" (toString (current + 1))) w).2).meta
              = w.meta from rfl, h]
      · simp [hlt]

theorem paginateLoop_pages {σ : Type} (step : σ → Request → TransportResult × σ)
    (c : Client) (endpoint : String) (N : Nat) :
    ∀ (fuel current : Nat) (queries : List (String × String)) (accum : List PageHandle)
      (w : World σ),
    readTotal w.meta = some (some (Json.num N)) →
    N - current ≤ fuel → 1 ≤ current →
    ∃ ps qf wf,
      paginateLoop step c endpoint fuel queries accum current w = (Res.ok (accum ++ ps, qf), wf)
      ∧ ps.map handleEp = (List.range' (current + 1) (N - current)).map
          (fun k => some (epOf endpoint (setQ queries "page" (toString k)))) := by
  intro fuel
  induction fuel with
  | zero =>
    intro current queries accum w hT hfuel hcur
    have hlt : ltTotal current (some (Json.num N)) = false := by
      simp only [ltTotal, decide_eq_false_iff_not, not_lt]
      exact_mod_cast Nat.le_of_sub_eq_zero (Nat.le_zero.mp hfuel)
    refine ⟨[], setQ queries "page" (toString (current + 1)), w, ?_, ?_⟩
    · simp [paginateLoop_zero, hT, hlt]
    · have h0 : N - current = 0 := Nat.le_zero.mp hfuel
      simp [h0]
  | succ n ih =>
    intro current queries accum w hT hfuel hcur
    by_cases hlt : current < N
    · have hltb : ltTotal current (some (Json.num N)) = true := by
        simp only [ltTotal, decide_eq_true_eq]
        exact_mod_cast hlt
      have hT' : readTotal ((getIssue step c endpoint
            (setQ queries "page" (toString (current + 1))) w).2).meta
          = some (some (Json.num N)) := by
        rw [getIssue_meta]; exact hT
      obtain ⟨ps', qf, wf, heq, hmap⟩ :=
        ih (current + 1) (setQ queries "page" (toString (current + 1)))
          (accum ++ [PageHandle.pending
            (getIssue step c endpoint (setQ queries "page" (toString (current + 1))) w).1])
          ((getIssue step c endpoint (setQ queries "page" (toString (current + 1))) w).2)
          hT' (by omega) (by omega)
      refine ⟨PageHandle.pending
          (getIssue step c endpoint (setQ queries "page" (toString (current + 1))) w).1 :: ps',
        qf, wf, ?_, ?_⟩
      · have hstep : paginateLoop step c endpoint (n + 1) queries accum current w
            = paginateLoop step c endpoint n (setQ queries "page" (toString (current + 1)))
                (accum ++ [PageHandle.pending
                  (getIssue step c endpoint (setQ queries "page" (toString (current + 1))) w).1])
                (current + 1)
                ((getIssue step c endpoint (setQ queries "page" (toString (current + 1))) w).2) := by
          simp [paginateLoop_succ, hT, hltb]
        rw [hstep, heq]
        simp
      · have hrange : N - current = (N - (current + 1)) + 1 := by omega
        rw [hrange, List.range'_succ]
        simp only [List.map_cons]
        rw [hmap]
        simp only [setQ_setQ]
        rfl
    · have hltb : ltTotal current (some (Json.num N)) = false := by
        simp only [ltTotal, decide_eq_false_iff_not, not_lt]
        exact_mod_cast Nat.not_lt.mp hlt
      refine ⟨[], setQ queries "page" (toString (current + 1)), w, ?_, ?_⟩
      · simp [paginateLoop_succ, hT, hltb]
      · have h0 : N - current = 0 := by omega
        simp [h0]

/-
Claim theorems.
-/

/-- C4: every received response with a non-2xx status is a terminal
failure: whatever the status, status text, body, endpoint, query,
client, fuel and prior state, get issues exactly one request (it is
never retried) and fails with an error whose message embeds the status
code, the status text and the raw body text; getAll over the same
server fails with the identical error after the same single request and
returns no data. -/
theorem non2xx_terminal_failure {σ : Type} (st : Nat) (stx : String) (b : BodyText)
    (c : Client) (endpoint : String) (queries : List (String × String))
    (fuel : Nat) (w : World σ) (hst : statusOk st = false) :
    get (constStep (TransportResult.response st stx b)) c fuel endpoint queries w
      = (Res.err (JsErr.requestError (errMsg st stx b.text)),
         ⟨w.server, w.log ++ [getReq c endpoint queries], w.meta⟩)
    ∧ containsStr (errMsg st stx b.text) (toString st)
    ∧ containsStr (errMsg st stx b.text) stx
    ∧ containsStr (errMsg st stx b.text) b.text
    ∧ getAll (constStep (TransportResult.response st stx b)) c fuel endpoint queries w
      = (Res.err (JsErr.requestError (errMsg st stx b.text)),
         ⟨w.server, w.log ++ [getReq c endpoint queries], w.meta⟩) := by
  have hget : get (constStep (TransportResult.response st stx b)) c fuel endpoint queries w
      = (Res.err (JsErr.requestError (errMsg st stx b.text)),
         ⟨w.server, w.log ++ [getReq c endpoint queries], w.meta⟩) := by
    cases fuel <;> simp [get, doFetch, constStep, hst]
  refine ⟨hget, ?_, ?_, ?_, ?_⟩
  · exact ⟨"", " - " ++ stx ++ ": " ++ b.text, by simp [errMsg, String.append_assoc]⟩
  · exact ⟨toString st ++ " - ", ": " ++ b.text, by simp [errMsg, String.append_assoc]⟩
  · exact ⟨toString st ++ " - " ++ stx ++ ": ", "", by
      simp [errMsg, String.append_assoc, String.append_empty]⟩
  · simp only [getAll, paginate, hget]

/-- C4 witness: a 404 response with status text Not Found and body text
not found makes get fail with the message embedding 404 and not found
after one request, and getAll fails the same way with no data. -/
theorem non2xx_terminal_failure_w :
    get (constStep (TransportResult.response 404 "Not Found" ⟨"not found", none⟩))
        client0 9 "v3/catalog/products" [] (initWorld ())
      = (Res.err (JsErr.requestError "404 - Not Found: not found"),
         ⟨(), [getReq client0 "v3/catalog/products" []], some (Json.obj [])⟩)
    ∧ containsStr "404 - Not Found: not found" "404"
    ∧ containsStr "404 - Not Found: not found" "not found"
    ∧ getAll (constStep (TransportResult.response 404 "Not Found" ⟨"not found", none⟩))
        client0 9 "v3/catalog/products" [] (initWorld ())
      = (Res.err (JsErr.requestError "404 - Not Found: not found"),
         ⟨(), [getReq client0 "v3/catalog/products" []], some (Json.obj [])⟩) := by
  have h := non2xx_terminal_failure 404 "Not Found" ⟨"not found", none⟩ client0
    "v3/catalog/products" [] 9 (initWorld ()) (by decide)
  exact ⟨h.1, h.2.1, h.2.2.2.1, h.2.2.2.2⟩

/-- C6: for a 2xx response the envelope reader returns no value on an
empty body and leaves the session untouched; on a non-empty body that
is not valid JSON it fails with the parse error; on a non-empty valid
body it returns the data field and unconditionally overwrites the
session's held metadata with the parsed meta field, whatever the
session held before. -/
theorem readResponse_envelope {σ : Type} (w : World σ) (b : BodyText) :
    (b.text.length = 0 → readResponse b w = (Res.ok none, w))
    ∧ (b.text.length ≠ 0 → b.json = none → readResponse b w = (Res.err JsErr.parseError, w))
    ∧ (∀ j m d, b.text.length ≠ 0 → b.json = some j →
        jsProp j "meta" = some m → jsProp j "data" = some d →
        readResponse b w = (Res.ok d, ⟨w.server, w.log, m⟩)) := by
  refine ⟨?_, ?_, ?_⟩
  · intro h; simp [readResponse, h]
  · intro h hj; simp [readResponse, h, hj]
  · intro j m d h hj hm hd; simp [readResponse, h, hj, hm, hd]

/-- C6 witness: a concrete envelope body is read into its data field and
its meta field replaces the session metadata. -/
theorem readResponse_envelope_w :
    readResponse ⟨"envelope", some (Json.obj [("data", Json.num 7), ("meta", Json.num 5)])⟩
        (initWorld 0)
      = (Res.ok (some (Json.num 7)), ⟨0, [], some (Json.num 5)⟩) :=
  (readResponse_envelope (initWorld 0)
      ⟨"envelope", some (Json.obj [("data", Json.num 7), ("meta", Json.num 5)])⟩).2.2
    (Json.obj [("data", Json.num 7), ("meta", Json.num 5)])
    (some (Json.num 5)) (some (Json.num 7)) (by decide) rfl rfl rfl

/-- C9: a 2xx response with an empty body and one with the two-character
empty-object body are observably different at the client interface:
both return no value, but the empty body leaves the session metadata
untouched while the empty-object body overwrites it with undefined, so
whenever the session held defined metadata the resulting session states
differ. -/
theorem empty_body_vs_empty_object {σ : Type} (w : World σ) (m : Json)
    (h : w.meta = some m) :
    (readResponse emptyBody w).1 = Res.ok none
    ∧ (readResponse emptyObjBody w).1 = Res.ok none
    ∧ (readResponse emptyBody w).2.meta = some m
    ∧ (readResponse emptyObjBody w).2.meta = none
    ∧ (readResponse emptyBody w).2.meta ≠ (readResponse emptyObjBody w).2.meta := by
  have h1 : (readResponse emptyBody w).2.meta = some m := h
  have h2 : (readResponse emptyObjBody w).2.meta = none := rfl
  exact ⟨rfl, rfl, h1, h2, by rw [h1, h2]; exact fun hc => Option.noConfusion hc⟩

/-- C9 witness: from the freshly constructed session the two responses
leave different session states. -/
theorem empty_body_vs_empty_object_w :
    (readResponse emptyBody (initWorld 0)).2.meta
      ≠ (readResponse emptyObjBody (initWorld 0)).2.meta :=
  (empty_body_vs_empty_object (initWorld 0) (Json.obj []) rfl).2.2.2.2

/-- C10: when the first transport attempt of delete throws, the catch
branch awaits a retried delete but does not return its outcome, and the
subsequent response.ok test reads the still-unassigned response: the
original call fails with a TypeError even though the retried request
was issued and succeeded with a 2xx response (both issued requests are
in the log and the server answered the second). -/
theorem delete_typeError_after_retry (c : Client) (endpoint : String)
    (queries : List (String × String)) (st : Nat) (stx : String) (b : BodyText)
    (fuel : Nat) (hok : statusOk st = true) :
    delete (failFirst (TransportResult.response st stx b)) c (fuel + 1) endpoint queries
        (initWorld false)
      = (Res.err JsErr.typeError,
         ⟨true,
          [⟨"DELETE", c.base ++ epOf endpoint queries, none⟩,
           ⟨"DELETE", c.base ++ epOf (epOf endpoint queries) queries, none⟩],
          some (Json.obj [])⟩) := by
  cases fuel <;> simp [delete, doFetch, failFirst, initWorld, hok]

/-- C10 witness: a concrete delete whose first attempt throws and whose
retry is answered 204 still fails with the TypeError. -/
theorem delete_typeError_after_retry_w :
    delete (failFirst (TransportResult.response 204 "No Content" ⟨"", none⟩)) client0 1
        "v3/products/7" [] (initWorld false)
      = (Res.err JsErr.typeError,
         ⟨true,
          [⟨"DELETE", client0.base ++ epOf "v3/products/7" [], none⟩,
           ⟨"DELETE", client0.base ++ epOf (epOf "v3/products/7" []) [], none⟩],
          some (Json.obj [])⟩) :=
  delete_typeError_after_retry client0 "v3/products/7" [] 204 "No Content" ⟨"", none⟩ 0
    (by decide)

/-- C1: on a two-page collection whose pages hold the items 1, 2 and 3,
getAll resolves to the two page arrays in page order, a list of length
two, and not to the flat three-item concatenation the claim states. -/
theorem getAll_nests_pages :
    (getAll (pageStep 2 c1pages) client0 5 "products" [] (initWorld 0)).1
      = Res.ok [some (Json.arr [Json.num 1, Json.num 2]), some (Json.arr [Json.num 3])]
    ∧ (getAll (pageStep 2 c1pages) client0 5 "products" [] (initWorld 0)).1
      ≠ Res.ok [some (Json.num 1), some (Json.num 2), some (Json.num 3)] := by
  have h1 : (getAll (pageStep 2 c1pages) client0 5 "products" [] (initWorld 0)).1
      = Res.ok [some (Json.arr [Json.num 1, Json.num 2]), some (Json.arr [Json.num 3])] := rfl
  refine ⟨h1, ?_⟩
  rw [h1]
  intro h
  have hlen := congrArg (fun r => match r with | Res.ok l => l.length | _ => 0) h
  simp at hlen

/-- C3 counterexample: when the first transport attempt of a get throws,
the retried request is not identical to the original: the catch branch
calls get with the already-mutated endpoint, so the retried URL has the
query string appended a second time. -/
theorem get_retry_not_identical :
    ((get (failFirst (TransportResult.response 200 "OK" ⟨"", none⟩)) client0 1
        "v3/catalog/products" [("sku", "10205")] (initWorld false)).2.log.map Request.url)
      = ["https://api.bigcommerce.com/stores/abc/v3/catalog/products?sku=10205",
         "https://api.bigcommerce.com/stores/abc/v3/catalog/products?sku=10205?sku=10205"]
    ∧ ("https://api.bigcommerce.com/stores/abc/v3/catalog/products?sku=10205" : String)
      ≠ "https://api.bigcommerce.com/stores/abc/v3/catalog/products?sku=10205?sku=10205" :=
  ⟨rfl, by decide⟩

/-- C3 amended: on a transport failure before any response the executor
immediately re-issues the request with the same method, the same
headers and the same body, with no backoff and no retry cap, and the
transport failure is never surfaced to the caller (for a 2xx retried
response, get, post and put return that response's outcome, while
delete fails with the fall-through type error of the unassigned
response, not with the transport failure); the retried request's target
URL is identical for post and put, but not for get and delete, whose
catch branch passes the already-mutated endpoint, appending the query
string a second time. -/
theorem transport_retry_reissues (c : Client) (endpoint : String)
    (queries : List (String × String)) (st : Nat) (stx : String) (b : BodyText)
    (bodyJson : Json) (fuel : Nat) (hok : statusOk st = true) :
    get (failFirst (TransportResult.response st stx b)) c (fuel + 1) endpoint queries
        (initWorld false)
      = readResponse b
          ⟨true, [getReq c endpoint queries, getReq c (epOf endpoint queries) queries],
           some (Json.obj [])⟩
    ∧ (getReq c (epOf endpoint queries) queries).method = (getReq c endpoint queries).method
    ∧ (getReq c (epOf endpoint queries) queries).url
        = (getReq c endpoint queries).url ++ ("?" ++ stringifyQ queries)
    ∧ (getReq c (epOf endpoint queries) queries).url ≠ (getReq c endpoint queries).url
    ∧ post (failFirst (TransportResult.response st stx b)) c (fuel + 1) endpoint bodyJson
          (initWorld false)
        = readResponse b
            ⟨true,
             [⟨"POST", c.base ++ endpoint, some bodyJson⟩,
              ⟨"POST", c.base ++ endpoint, some bodyJson⟩],
             some (Json.obj [])⟩
    ∧ put (failFirst (TransportResult.response st stx b)) c (fuel + 1) endpoint bodyJson
          (initWorld false)
        = readResponse b
            ⟨true,
             [⟨"PUT", c.base ++ endpoint, some bodyJson⟩,
              ⟨"PUT", c.base ++ endpoint, some bodyJson⟩],
             some (Json.obj [])⟩
    ∧ delete (failFirst (TransportResult.response st stx b)) c (fuel + 1) endpoint queries
          (initWorld false)
        = (Res.err JsErr.typeError,
           ⟨true,
            [⟨"DELETE", c.base ++ epOf endpoint queries, none⟩,
             ⟨"DELETE", c.base ++ epOf (epOf endpoint queries) queries, none⟩],
            some (Json.obj [])⟩) := by
  have hurl : (getReq c (epOf endpoint queries) queries).url
      = (getReq c endpoint queries).url ++ ("?" ++ stringifyQ queries) := by
    simp [getReq, epOf, String.append_assoc]
  refine ⟨?_, rfl, hurl, ?_, ?_, ?_, ?_⟩
  · cases fuel <;> simp [get, doFetch, failFirst, initWorld, hok]
  · intro h
    have hlen := congrArg String.length (hurl.symm.trans h)
    have hq : ("?" : String).length = 1 := rfl
    rw [String.length_append, String.length_append, hq] at hlen
    omega
  · cases fuel <;> simp [post, doFetch, failFirst, initWorld, hok]
  · cases fuel <;> simp [put, doFetch, failFirst, initWorld, hok]
  · cases fuel <;> simp [delete, doFetch, failFirst, initWorld, hok]

/-- C3 amended witness: at a concrete input the retried get URL differs
from the original. -/
theorem transport_retry_reissues_w :
    (getReq client0 (epOf "p" [("a", "b")]) [("a", "b")]).url
      ≠ (getReq client0 "p" [("a", "b")]).url :=
  (transport_retry_reissues client0 "p" [("a", "b")] 200 "OK" ⟨"", none⟩ Json.null 0
      (by decide)).2.2.2.1

/-- C7: on a five-page collection the fetch-event trace of getAll has
more than three page fetches simultaneously in flight, whatever order
the network completes them in: paginate's synchronous loop starts the
fetches of pages 2 to 5 before any of their responses can be processed,
and the Bluebird concurrency option of getAll only schedules the
awaiting of these already-started promises. -/
theorem paginate_eager_fanout (order : List Nat) :
    3 < inFlightMax
        (getAllTrace (pageStep 5 (fun _ => [Json.num 0])) client0 9 "products" []
          (initWorld 0) order) 0 := by
  have h : getAllTrace (pageStep 5 (fun _ => [Json.num 0])) client0 9 "products" []
        (initWorld 0) order
      = [FetchEv.start (getReq client0 "products" []),
         FetchEv.complete (getReq client0 "products" []),
         FetchEv.start ⟨"GET", client0.base ++ epOf "products" [("page", "2")], none⟩,
         FetchEv.start ⟨"GET", client0.base ++ epOf "products" [("page", "3")], none⟩,
         FetchEv.start ⟨"GET", client0.base ++ epOf "products" [("page", "4")], none⟩,
         FetchEv.start ⟨"GET", client0.base ++ epOf "products" [("page", "5")], none⟩]
        ++ order.filterMap (fun i =>
            (([⟨"GET", client0.base ++ epOf "products" [("page", "2")], none⟩,
               ⟨"GET", client0.base ++ epOf "products" [("page", "3")], none⟩,
               ⟨"GET", client0.base ++ epOf "products" [("page", "4")], none⟩,
               ⟨"GET", client0.base ++ epOf "products" [("page", "5")], none⟩] :
              List Request).get? i).map FetchEv.complete) := rfl
  rw [h]
  simp only [List.cons_append, List.nil_append, inFlightMax]
  omega

/-- C8: the termination test of paginate's loop observes the total_pages
value produced by the first page's fetch and is stable for the whole
call: although the source re-evaluates this.meta.pagination.total_pages
at each iteration, the loop is synchronous and nothing in it updates
the session metadata, so paginate is extensionally equal to the
spec-modelled variant paginateOnce that reads total_pages exactly once
after the first fetch, for every transport, fuel and starting state. -/
theorem paginate_reads_total_once {σ : Type} (step : σ → Request → TransportResult × σ)
    (c : Client) (fuel : Nat) (endpoint : String) (queries : List (String × String))
    (w : World σ) :
    paginate step c fuel endpoint queries w = paginateOnce step c fuel endpoint queries w := by
  rcases hg : get step c fuel endpoint queries w with ⟨r, w'⟩
  cases r with
  | ok d =>
    simp only [paginate, paginateOnce, hg]
    exact paginateLoop_eq_once step c endpoint fuel queries [PageHandle.value d] 1 w'
  | err e => simp [paginate, paginateOnce, hg]
  | stuck => simp [paginate, paginateOnce, hg]

/-- C5: against a paginated collection with total_pages = N, paginate
returns the first page's resolved data followed by exactly one pending
page fetch per page index 2..N, in page-index order, each snapshotting
the caller's query with page overwritten to that index; for N = 0 or
N = 1 (in particular a collection with zero items) the sequence is the
single first-page entry. -/
theorem paginate_page_sequence (N : Nat) (endpoint : String)
    (queries : List (String × String)) (pages : Nat → List Json) :
    ∃ ps qf wf,
      paginate (pageStep N pages) client0 (N + 1) endpoint queries (initWorld 0)
        = (Res.ok (PageHandle.value (some (Json.arr (pages 0))) :: ps, qf), wf)
      ∧ ps.map handleEp = (List.range' 2 (N - 1)).map
          (fun k => some (epOf endpoint (setQ queries "page" (toString k)))) := by
  have hget : get (pageStep N pages) client0 (N + 1) endpoint queries (initWorld 0)
      = (Res.ok (some (Json.arr (pages 0))),
         ⟨1, [getReq client0 endpoint queries],
          some (Json.obj [("pagination", Json.obj
            [("total_pages", Json.num N), ("current_page", Json.num 1)])])⟩) := rfl
  obtain ⟨ps, qf, wf, heq, hmap⟩ :=
    paginateLoop_pages (pageStep N pages) client0 endpoint N (N + 1) 1 queries
      [PageHandle.value (some (Json.arr (pages 0)))]
      ⟨1, [getReq client0 endpoint queries],
       some (Json.obj [("pagination", Json.obj
         [("total_pages", Json.num N), ("current_page", Json.num 1)])])⟩
      rfl (by omega) (by omega)
  refine ⟨ps, qf, wf, ?_, ?_⟩
  · simp only [paginate, hget]
    rw [heq]
    simp
  · simpa using hmap

/-
Helper lemmas for the deleteAll run.
-/

theorem delete_deleteStep (L : Nat) (c : Client) (fuel : Nat) (ep : String)
    (w : World (List Int)) :
    delete (deleteStep L) c fuel ep [] w
      = (Res.ok (),
         ⟨w.server.drop 1, w.log ++ [⟨"DELETE", c.base ++ epOf ep [], none⟩], w.meta⟩) := by
  have h204 : statusOk 204 = true := rfl
  cases fuel <;> simp [delete, doFetch, deleteStep, epOf, h204]

theorem get_deleteStep (L : Nat) (c : Client) (fuel : Nat) (endpoint : String)
    (q : List (String × String)) (w : World (List Int)) :
    get (deleteStep L) c fuel endpoint q w
      = (Res.ok (some (Json.arr ((w.server.take L).map toItem))),
         ⟨w.server, w.log ++ [getReq c endpoint q], some (Json.obj [])⟩) := by
  have h200 : statusOk 200 = true := rfl
  have hlen : ("items" : String).length = 5 := rfl
  cases fuel <;>
    simp [get, doFetch, deleteStep, getReq, readResponse, itemsBody, jsProp, lookupField,
      h200, hlen]

theorem deleteItems_run (L : Nat) (c : Client) (fuel : Nat) (endpoint : String) :
    ∀ (l : List Int) (w : World (List Int)),
    deleteItems (deleteStep L) c fuel endpoint (l.map toItem) w
      = (Res.ok (),
         ⟨w.server.drop l.length,
          w.log ++ l.map (fun i =>
            (⟨"DELETE", c.base ++ epOf (endpoint ++ "/" ++ toString i) [], none⟩ : Request)),
          w.meta⟩) := by
  intro l
  induction l with
  | nil => intro w; simp [deleteItems]
  | cons i tl ih =>
    intro w
    have h1 : jsProp (toItem i) "id" = some (some (Json.num i)) := rfl
    simp only [List.map_cons, deleteItems, h1]
    rw [show jsToString (some (Json.num i)) = toString i from rfl]
    rw [delete_deleteStep]
    simp [ih, List.drop_drop, Nat.add_comm]

theorem ceil_rec (M L : Nat) (hM : 1 ≤ M) (hL : 1 ≤ L) :
    (M + L - 1) / L = ((M - L) + L - 1) / L + 1 := by
  rcases le_or_lt M L with h | h
  · have h1 : M - L = 0 := by omega
    rw [h1]
    have h2 : (M + L - 1) / L = 1 := Nat.div_eq_of_lt_le (by omega) (by omega)
    have h3 : (0 + L - 1) / L = 0 := Nat.div_eq_of_lt (by omega)
    omega
  · have h1 : M - L + L - 1 = M - 1 := by omega
    rw [h1]
    have h2 : M + L - 1 = (M - 1) + L := by omega
    rw [h2, Nat.add_div_right _ (by omega : 0 < L)]

theorem countMethod_append (a b : List Request) (m : String) :
    countMethod (a ++ b) m = countMethod a m + countMethod b m := by
  simp [countMethod, List.filter_append]

theorem countMethod_all (l : List Request) (m : String) (h : ∀ r ∈ l, r.method = m) :
    countMethod l m = l.length := by
  unfold countMethod
  rw [List.filter_eq_self.mpr]
  intro r hr
  simp [h r hr]

theorem countMethod_none (l : List Request) (m : String) (h : ∀ r ∈ l, ¬ r.method = m) :
    countMethod l m = 0 := by
  unfold countMethod
  rw [List.filter_eq_nil_iff.mpr]
  · rfl
  · intro r hr
    simp [h r hr]

theorem deleteAllLoop_nil {σ : Type} (step : σ → Request → TransportResult × σ)
    (c : Client) (fuel rounds : Nat) (endpoint : String)
    (q : List (String × String)) (w : World σ) :
    deleteAllLoop step c fuel rounds endpoint q [] w = (Res.ok (), w) := by
  conv_lhs => unfold deleteAllLoop

theorem deleteAllLoop_cons {σ : Type} (step : σ → Request → TransportResult × σ)
    (c : Client) (fuel r : Nat) (endpoint : String) (q : List (String × String))
    (it : Json) (rest : List Json) (w : World σ) :
    deleteAllLoop step c fuel (r + 1) endpoint q (it :: rest) w
      = match deleteItems step c fuel endpoint (it :: rest) w with
        | (Res.ok _, w') =>
          match get step c fuel endpoint q w' with
          | (Res.ok d, w2) =>
            match jsItems d with
            | Res.ok items' => deleteAllLoop step c fuel r endpoint q items' w2
            | Res.err e => (Res.err e, w2)
            | Res.stuck => (Res.stuck, w2)
          | (Res.err e, w2) => (Res.err e, w2)
          | (Res.stuck, w2) => (Res.stuck, w2)
        | (other, w') => (other, w') := by
  conv_lhs => unfold deleteAllLoop

theorem deleteAllLoop_run (L : Nat) (hL : 1 ≤ L) (c : Client) (fuel : Nat)
    (endpoint : String) (q : List (String × String)) :
    ∀ (rounds : Nat) (ids : List Int) (w : World (List Int)),
    ids.length < rounds → w.server = ids →
    ∃ wf,
      deleteAllLoop (deleteStep L) c fuel rounds endpoint q ((ids.take L).map toItem) w
        = (Res.ok (), wf)
      ∧ countMethod wf.log "DELETE" = countMethod w.log "DELETE" + ids.length
      ∧ countMethod wf.log "GET" = countMethod w.log "GET" + (ids.length + L - 1) / L
      ∧ (wf.log.filter (fun r => r.method == "DELETE")).map Request.url
        = (w.log.filter (fun r => r.method == "DELETE")).map Request.url
          ++ ids.map (fun i => c.base ++ epOf (endpoint ++ "/" ++ toString i) []) := by
  intro rounds
  induction rounds with
  | zero =>
    intro ids w hr hw
    exact absurd hr (Nat.not_lt_zero _)
  | succ r ih =>
    intro ids w hr hw
    cases ids with
    | nil =>
      refine ⟨w, ?_, by simp, ?_, by simp⟩
      · simp [deleteAllLoop_nil]
      · have h0 : (0 + L - 1) / L = 0 := Nat.div_eq_of_lt (by omega)
        simp only [List.length_nil]
        rw [h0]
        simp
    | cons i0 tl =>
      obtain ⟨l', rfl⟩ : ∃ l', L = l' + 1 := ⟨L - 1, by omega⟩
      have hitems : (((i0 :: tl).take (l' + 1)).map toItem)
          = toItem i0 :: ((tl.take l').map toItem) := by
        simp [List.take_succ_cons]
      have hDI := deleteItems_run (l' + 1) c fuel endpoint (i0 :: tl.take l') w
      simp only [List.map_cons] at hDI
      have hserv : w.server.drop ((i0 :: tl.take l').length) = tl.drop l' := by
        rw [hw]
        simp only [List.length_cons, List.drop_succ_cons, List.length_take]
        rcases le_total l' tl.length with h | h
        · rw [Nat.min_eq_left h]
        · rw [Nat.min_eq_right h, List.drop_length, List.drop_eq_nil_of_le h]
      obtain ⟨wf, heq, hD, hG, hU⟩ :=
        ih (tl.drop l')
          ⟨tl.drop l',
           (w.log ++ (i0 :: tl.take l').map (fun i =>
             (⟨"DELETE", c.base ++ epOf (endpoint ++ "/" ++ toString i) [], none⟩ : Request)))
             ++ [getReq c endpoint q],
           some (Json.obj [])⟩
          (by
            simp only [List.length_drop]
            simp only [List.length_cons] at hr
            omega)
          rfl
      dsimp only at hD hG hU
      have hDd : countMethod ((i0 :: tl.take l').map (fun i =>
            (⟨"DELETE", c.base ++ epOf (endpoint ++ "/" ++ toString i) [], none⟩ : Request)))
          "DELETE" = (i0 :: tl.take l').length := by
        rw [countMethod_all _ _ (by
          intro x hx
          obtain ⟨i, _, rfl⟩ := List.mem_map.mp hx
          rfl)]
        rw [List.length_map]
      have hDg : countMethod ((i0 :: tl.take l').map (fun i =>
            (⟨"DELETE", c.base ++ epOf (endpoint ++ "/" ++ toString i) [], none⟩ : Request)))
          "GET" = 0 := by
        apply countMethod_none
        intro x hx
        obtain ⟨i, _, rfl⟩ := List.mem_map.mp hx
        simp
      have hGd : countMethod [getReq c endpoint q] "DELETE" = 0 := by
        apply countMethod_none
        intro x hx
        simp only [List.mem_singleton] at hx
        subst hx
        simp [getReq]
      have hGg : countMethod [getReq c endpoint q] "GET" = 1 := by
        rw [countMethod_all _ _ (by
          intro x hx
          simp only [List.mem_singleton] at hx
          subst hx
          rfl)]
        rfl
      refine ⟨wf, ?_, ?_, ?_, ?_⟩
      · rw [hitems, deleteAllLoop_cons]
        rw [show (toItem i0 :: (tl.take l').map toItem)
              = ((i0 :: tl.take l').map toItem) from by simp]
        rw [deleteItems_run]
        simp only [List.map_cons]
        rw [get_deleteStep]
        simp only [jsItems, hserv]
        exact heq
      · rw [hD, countMethod_append, countMethod_append, hDd, hGd]
        simp only [List.length_cons, List.length_take, List.length_drop]
        omega
      · rw [hG, countMethod_append, countMethod_append, hDg, hGg]
        have h2 : tl.length + 1 - (l' + 1) = tl.length - l' := by omega
        have hceil := ceil_rec (tl.length + 1) (l' + 1) (by omega) (by omega)
        rw [h2] at hceil
        simp only [List.length_cons, List.length_drop]
        omega
      · rw [hU]
        have hfil1 : List.filter (fun r => r.method == "DELETE")
              ((i0 :: tl.take l').map (fun i =>
                (⟨"DELETE", c.base ++ epOf (endpoint ++ "/" ++ toString i) [], none⟩ : Request)))
            = (i0 :: tl.take l').map (fun i =>
                (⟨"DELETE", c.base ++ epOf (endpoint ++ "/" ++ toString i) [], none⟩ : Request)) := by
          apply List.filter_eq_self.mpr
          intro x hx
          obtain ⟨i, _, rfl⟩ := List.mem_map.mp hx
          rfl
        have hfil2 : List.filter (fun r => r.method == "DELETE") [getReq c endpoint q] = [] := by
          simp [getReq]
        rw [List.filter_append, List.filter_append, hfil1, hfil2]
        simp only [List.append_nil, List.map_append, List.map_map]
        simp only [Function.comp_def]
        rw [List.append_assoc, ← List.map_append]
        rw [show (i0 :: tl.take l') ++ tl.drop l' = i0 :: tl from by
              simp [List.take_append_drop]]

/-- C2: deleteAll on a collection of M matched items with page limit L
sets the query's limit to L and then repeats delete rounds: each round
deletes every item of the fetched page (one DELETE per item, addressed
by the item's id in the URL) and re-fetches the same query; the run
succeeds after issuing exactly M DELETE requests and ceil(M/L) + 1 GET
requests (the initial fetch plus one per round, the last of which
returns zero items and ends the loop immediately). -/
theorem deleteAll_rounds (ids : List Int) (L : Nat) (endpoint : String)
    (queries0 : List (String × String)) (fuel : Nat) (hL : 1 ≤ L) :
    ∃ wf,
      deleteAll (deleteStep L) client0 fuel (ids.length + 1) endpoint queries0 L (initWorld ids)
        = (Res.ok (), wf)
      ∧ countMethod wf.log "DELETE" = ids.length
      ∧ countMethod wf.log "GET" = (ids.length + L - 1) / L + 1
      ∧ (wf.log.filter (fun r => r.method == "DELETE")).map Request.url
        = ids.map (fun i => client0.base ++ epOf (endpoint ++ "/" ++ toString i) []) := by
  obtain ⟨wf, heq, hD, hG, hU⟩ :=
    deleteAllLoop_run L hL client0 fuel endpoint (setQ queries0 "limit" (toString L))
      (ids.length + 1) ids
      ⟨ids, [getReq client0 endpoint (setQ queries0 "limit" (toString L))], some (Json.obj [])⟩
      (by omega) rfl
  dsimp only at hD hG hU
  have hcD : countMethod [getReq client0 endpoint (setQ queries0 "limit" (toString L))]
      "DELETE" = 0 := by
    apply countMethod_none
    intro x hx
    simp only [List.mem_singleton] at hx
    subst hx
    simp [getReq]
  have hcG : countMethod [getReq client0 endpoint (setQ queries0 "limit" (toString L))]
      "GET" = 1 := by
    rw [countMethod_all _ _ (by
      intro x hx
      simp only [List.mem_singleton] at hx
      subst hx
      rfl)]
    rfl
  refine ⟨wf, ?_, ?_, ?_, ?_⟩
  · simp only [deleteAll]
    rw [get_deleteStep]
    dsimp only [initWorld]
    simp only [jsItems, List.nil_append]
    exact heq
  · rw [hD, hcD]
    omega
  · rw [hG, hcG]
    omega
  · rw [hU]
    rw [show List.filter (fun r => r.method == "DELETE")
          [getReq client0 endpoint (setQ queries0 "limit" (toString L))] = [] from by
        simp [getReq]]
    simp

/-- C2 witness: deleting a three-item collection with page limit 2
issues exactly three DELETE requests addressed by the item ids and
three GET requests (the initial fetch plus two rounds, the second round
fetching the empty page). -/
theorem deleteAll_rounds_w :
    ∃ wf,
      deleteAll (deleteStep 2) client0 0 4 "v3/catalog/products" [] 2 (initWorld [5, 6, 7])
        = (Res.ok (), wf)
      ∧ countMethod wf.log "DELETE" = 3
      ∧ countMethod wf.log "GET" = 3
      ∧ (wf.log.filter (fun r => r.method == "DELETE")).map Request.url
        = ["https://api.bigcommerce.com/stores/abc/v3/catalog/products/5?",
           "https://api.bigcommerce.com/stores/abc/v3/catalog/products/6?",
           "https://api.bigcommerce.com/stores/abc/v3/catalog/products/7?"] :=
  deleteAll_rounds [5, 6, 7] 2 "v3/catalog/products" [] 0 (by decide)

end Bc
